import Mathlib

/-!
Verification development for the QNPtoVox pipeline (scripts/pipeline_utils.py,
scripts/pipeline_steps.py).  Python functions are shallowly embedded as Lean
definitions: CSV cells and config tokens are strings, Python `int(...)` is an
integer-literal parser, Python `//` on `int` is `Int.fdiv` (floor division),
`numpy` masks are functions from voxel coordinates to values, and code that
catches exceptions is modelled with `Option` results.  Characters are treated
as ASCII (the Unicode corner of Python `str.isdigit` is out of scope).
-/

namespace QNPtoVox

/-! ## Character/string helpers modelling Python `str` operations -/

/-- Python whitespace as used by `str.strip` (ASCII subset). -/
def isPyWs (c : Char) : Bool :=
  c == ' ' || c == '\t' || c == '\n' || c == '\r' || c == '\x0b' || c == '\x0c'

/-- Drop leading Python whitespace from a character list. -/
def dropWsLeft : List Char → List Char
  | [] => []
  | c :: r => if isPyWs c then dropWsLeft r else c :: r

/-- Model of Python `str.strip()` on a character list. -/
def stripChars (l : List Char) : List Char :=
  ((dropWsLeft l.reverse).reverse |> dropWsLeft)

/-- Model of Python `str.strip()`. -/
def pyStrip (s : String) : String :=
  String.mk (stripChars s.data)

/-- Model of Python `str.split(sep)` for a single-character separator:
splits at every occurrence, keeping empty groups. -/
def splitOnChar (sep : Char) : List Char → List (List Char)
  | [] => [[]]
  | c :: r =>
    if c == sep then [] :: splitOnChar sep r
    else
      match splitOnChar sep r with
      | [] => [[c]]
      | g :: gs => (c :: g) :: gs

/-- Model of Python `str.split(sep, 1)` for a string known to contain `sep`:
everything before the first occurrence, and everything after it. -/
def splitFirst (sep : Char) : List Char → List Char × List Char
  | [] => ([], [])
  | c :: r =>
    if c == sep then ([], r)
    else
      let p := splitFirst sep r
      (c :: p.1, p.2)

/-- Numeric value of a list of ASCII digits, most significant first. -/
def digitsToNat (l : List Char) : Nat :=
  l.foldl (fun a c => 10 * a + (c.toNat - 48)) 0

/-- Model of Python `str.isdigit()` restricted to ASCII: nonempty and all
characters are decimal digits. -/
def pyIsDigit (l : List Char) : Bool :=
  !l.isEmpty && l.all Char.isDigit

/-- Model of Python `int(s)` on a string: surrounding whitespace is ignored,
an optional single sign is allowed, and the rest must be a nonempty digit
string; returns `none` where Python raises `ValueError`. -/
def pyInt? (s : String) : Option Int :=
  match stripChars s.data with
  | '+' :: rest => if pyIsDigit rest then some (digitsToNat rest) else none
  | '-' :: rest => if pyIsDigit rest then some (-(digitsToNat rest : Int)) else none
  | t => if pyIsDigit t then some (digitsToNat t) else none

/-! ## ConfigStore: value coercion in `PipelineConfig._load_config`
(`scripts/pipeline_utils.py`, lines 41-48).

The loader strips each `key=value` pair and then coerces the value token:

    if value.lower() in ["true", "false"]:
        value = value.lower() == "true"
    elif value.replace(".", "").isdigit():
        value = float(value) if "." in value else int(value)
    elif "," in value:
        value = [item.strip() for item in value.split(",")]

Any exception inside the loader (in particular `float(...)` on a token such
as `1.2.3`, whose dot-stripped form is all digits but which is not a valid
float literal) is re-raised as a fatal `RuntimeError`; we model that outcome
as `CoerceResult.loadError`.  A successfully parsed float is kept as its
literal text (`floatV`): no claim computes with the floating-point value, so
its rounding is out of scope. -/

/-- A coerced configuration value. -/
inductive ConfigValue where
  | boolV (b : Bool)
  | intV (n : Nat)
  | floatV (literal : String)
  | listV (items : List String)
  | strV (s : String)
deriving DecidableEq

/-- Outcome of coercing one value token: a value, or a fatal load error. -/
inductive CoerceResult where
  | ok (v : ConfigValue)
  | loadError
deriving DecidableEq

/-- Characters of `l` with every dot removed (Python `value.replace(".", "")`). -/
def stripDots (l : List Char) : List Char :=
  l.filter (fun c => !(c == '.'))

/-- Number of dot characters in `l`. -/
def dotCount (l : List Char) : Nat :=
  l.count '.'

/-- Case-insensitive comparison of `s` against a lowercase reference `t`
(Python `s.lower() == t`). -/
def lowerEq (s t : List Char) : Bool :=
  s.map Char.toLower == t

/-- Model of `[item.strip() for item in value.split(",")]`. -/
def splitCommaStrip (value : String) : List String :=
  (splitOnChar ',' value.data).map (fun g => String.mk (stripChars g))

/-- Value coercion of `PipelineConfig._load_config`, translated from the
source.  On a token whose dot-stripped form is a nonempty digit string,
Python `float(value)` succeeds exactly when the token has at most one dot;
with two or more dots `float` raises, which the loader turns into a fatal
error. -/
def coerceValue (value : String) : CoerceResult :=
  let l := value.data
  if lowerEq l "true".data || lowerEq l "false".data then
    .ok (.boolV (lowerEq l "true".data))
  else if pyIsDigit (stripDots l) then
    if l.contains '.' then
      if dotCount l ≤ 1 then .ok (.floatV value) else .loadError
    else .ok (.intV (digitsToNat l))
  else if l.contains ',' then .ok (.listV (splitCommaStrip value))
  else .ok (.strV value)

/-- Coercion policy as the amended claim states it, written independently
from the amended words: case-insensitive `true`/`false` become booleans; a
token made only of digits and decimal points with at least one digit is
numeric-shaped — with two or more points the load fails, with exactly one it
is a float, with none an integer; a token containing a comma becomes the
list of stripped comma-separated items; anything else stays a string. -/
def specCoerceValueAmended (value : String) : CoerceResult :=
  let l := value.data
  if lowerEq l "true".data then .ok (.boolV true)
  else if lowerEq l "false".data then .ok (.boolV false)
  else if l.all (fun c => c.isDigit || c == '.') && l.any Char.isDigit then
    if 2 ≤ dotCount l then .loadError
    else if dotCount l = 1 then .ok (.floatV value)
    else .ok (.intV (digitsToNat l))
  else if l.any (fun c => c == ',') then .ok (.listV (splitCommaStrip value))
  else .ok (.strV value)

/-! ## AnnotationJoiner: `CoordinateExtractionStep._create_processed_file`
(`scripts/pipeline_steps.py`, lines 369-406).

The coordinate CSV rows (`Name, X, Y`) and the AT8 measurement rows
(`Tile, AT8_Value`) are joined positionally:

    if len(df_at8) == 0:
        df_tiles["AT8"] = 0
        df_tiles.to_csv(output_file, index=False)
        return
    n_i, n_j = df_at8.shape
    tile_coords = np.empty([n_i, 4], dtype=object)
    for i in range(n_i):
        y = 5 * i
        if y < len(df_tiles):
            tile_coords[i][0] = df_tiles.iloc[y, 0]
            tile_coords[i][1] = int(df_tiles.iloc[y, 1]) // 1000
            tile_coords[i][2] = int(df_tiles.iloc[y, 2]) // 1000
            tile_coords[i][3] = df_at8.iloc[i, 1]

and on any exception the raw coordinate file is copied to the processed-file
path instead.  `np.empty` with `dtype=object` initializes every cell to
`None`, so a row whose index `5*i` falls past the end of the coordinate list
stays an all-`None` row of the emitted DataFrame — it is emitted, not
dropped.  CSV cells are modelled as strings and `int(cell)` as `pyInt?`
(the numeric column inference of pandas is out of scope); the measurement
value is carried through unchanged as an integer payload. -/

/-- A row of the extracted coordinate CSV (`Name, X, Y`), cells as text. -/
structure RawCoord where
  name : String
  xs : String
  ys : String
deriving DecidableEq

/-- A row of the AT8 measurement CSV (`Tile, AT8_Value`). -/
structure Meas where
  tile : String
  value : Int
deriving DecidableEq

/-- One row of the joined processed DataFrame: either a filled row built
from a coordinate and a measurement, or an all-`None` row left untouched by
the fill loop. -/
inductive ProcRow where
  | filled (tile : String) (x z : Int) (value : Int)
  | noneRow
deriving DecidableEq

/-- Body of one iteration of the fill loop: row `i` of `tile_coords`.
`none` models an exception (a coordinate cell that `int(...)` rejects). -/
def joinRow (coords : List RawCoord) (at8 : List Meas) (i : Nat) : Option ProcRow :=
  if h5 : 5 * i < coords.length then
    match pyInt? (coords.get ⟨5 * i, h5⟩).xs, pyInt? (coords.get ⟨5 * i, h5⟩).ys, at8[i]? with
    | some x, some y, some m =>
      some (.filled (coords.get ⟨5 * i, h5⟩).name (Int.fdiv x 1000) (Int.fdiv y 1000) m.value)
    | _, _, _ => none
  else some .noneRow

/-- Run `joinRow` for each index of `l` in order; the first exception
aborts the whole construction (the Python loop body is effect-free until it
raises, so discarding the previously filled rows is faithful). -/
def joinRowsAux (coords : List RawCoord) (at8 : List Meas) : List Nat → Option (List ProcRow)
  | [] => some []
  | i :: is =>
    match joinRow coords at8 i, joinRowsAux coords at8 is with
    | some r, some rs => some (r :: rs)
    | _, _ => none

/-- The fill loop over `i in range(n_i)`. -/
def joinRows (coords : List RawCoord) (at8 : List Meas) : Option (List ProcRow) :=
  joinRowsAux coords at8 (List.range at8.length)

/-- Rows written in the empty-measurement fallback: the raw coordinate rows
with a constant `AT8 = 0` column appended. -/
def fallbackRows (coords : List RawCoord) : List (String × String × String × Int) :=
  coords.map (fun c => (c.name, c.xs, c.ys, (0 : Int)))

/-- What `_create_processed_file` leaves at the processed-file path. -/
inductive ProcResult where
  | fallback (rows : List (String × String × String × Int))
  | joined (rows : List ProcRow)
  | copiedRaw (coords : List RawCoord)
deriving DecidableEq

/-- Translation of `CoordinateExtractionStep._create_processed_file` from the
source: empty measurements take the fallback branch; otherwise the join is
attempted and any exception falls back to copying the raw coordinate file. -/
def createProcessedFile (coords : List RawCoord) (at8 : List Meas) : ProcResult :=
  if at8.length = 0 then .fallback (fallbackRows coords)
  else
    match joinRows coords at8 with
    | some rows => .joined rows
    | none => .copiedRaw coords

/-- Number of data rows of the emitted processed file. -/
def numRecords : ProcResult → Nat
  | .fallback rows => rows.length
  | .joined rows => rows.length
  | .copiedRaw coords => coords.length

/-- Tail of `CoordinateExtractionStep._process_subject`
(`scripts/pipeline_steps.py`, lines 256-278): with no coordinates the
subject fails early ("No coordinates extracted"); otherwise
`_create_processed_file` runs — it catches every exception internally — and
the subject is reported successful. -/
def extractStepResult (coords : List RawCoord) (at8 : List Meas) : Bool × Option ProcResult :=
  if coords.length = 0 then (false, none)
  else (true, some (createProcessedFile coords at8))

/-! ## ManualAnchorResolver: `CoordinateTransformationStep._load_manual_coordinates`
(`scripts/pipeline_steps.py`, lines 470-491).

    for line in f:
        line = line.strip()
        if line.startswith("#") or not line:
            continue
        if "=" in line:
            subj, coords = line.split("=", 1)
            subj = subj.strip()
            if subj == str(subject_id):
                x, y, z = map(int, coords.strip().split(","))
                return (x, y, z)
    return None

with the whole scan wrapped in `try ... except Exception: return None`, so a
matched right-hand side that does not unpack into exactly three integers
also yields `None` — the same value as "no line matched". -/

/-- Parse of `coords.strip().split(",")` unpacked as exactly three Python
integers; `none` models the `ValueError` the `except` swallows. -/
def parseThreeInts (rhs : String) : Option (Int × Int × Int) :=
  match (splitOnChar ',' (stripChars rhs.data)).map (fun g => pyInt? (String.mk g)) with
  | [some a, some b, some c] => some (a, b, c)
  | _ => none

/-- Does a raw file line select this subject?  True exactly when the
stripped line is not a comment, not blank, contains `=`, and its stripped
left-hand side equals the subject id. -/
def matchesSubject (line : String) (subjectId : Nat) : Bool :=
  let l := stripChars line.data
  !(l.take 1 == ['#']) && !l.isEmpty && l.contains '=' &&
    String.mk (stripChars (splitFirst '=' l).1) == toString subjectId

/-- Right-hand side (after the first `=`) of a stripped line. -/
def rhsOf (line : String) : String :=
  String.mk (splitFirst '=' (stripChars line.data)).2

/-- Translation of `_load_manual_coordinates` from the source: scan the lines
in order, skip comments, blanks and `=`-free lines, and return the parse of
the first matching line; both "no match" and "malformed match" end as
`none`. -/
def loadManualCoordinates : List String → Nat → Option (Int × Int × Int)
  | [], _ => none
  | line :: rest, subjectId =>
    if matchesSubject line subjectId then parseThreeInts (rhsOf line)
    else loadManualCoordinates rest subjectId

/-! ## VolumeBlockBuilder: `CoordinateTransformationStep._create_3d_blocks`
(`scripts/pipeline_steps.py`, lines 493-582).

    mask = np.zeros(img.shape)
    x_offset, y_slice, z_offset = manual_coords
    block_size = self.config.get("block_size", 7)
    for <each row>:
        x = int(original_x) + x_offset
        y = y_slice
        z = int(original_z) + z_offset
        if (0 <= x < img.shape[0] and 0 <= y < img.shape[1] and 0 <= z < img.shape[2]):
            half_block = block_size // 2
            for dx in range(-half_block, half_block + 1):
                for dy in range(-half_block, half_block + 1):
                    for dz in range(-half_block, half_block + 1):
                        nx, ny, nz = x + dx, y + dy, z + dz
                        if (0 <= nx < shape[0] and 0 <= ny < shape[1] and 0 <= nz < shape[2]):
                            mask[nx, ny, nz] = at8_value

The mask is modelled as a total function from integer voxel coordinates to
values; each `mask[...] = v` is a guarded pointwise update, and the loops
are folds over the explicit offset lists, in loop order. -/

/-- A voxel coordinate (possibly out of bounds, hence integers). -/
structure Vox where
  x : Int
  y : Int
  z : Int
deriving DecidableEq

/-- A joined tile record as `_create_3d_blocks` consumes it. -/
structure TileRec where
  X : Int
  Z : Int
  Value : Int
deriving DecidableEq

/-- The manual per-subject anchor `(x_offset, y_slice, z_offset)`. -/
structure Anchor where
  X : Int
  YSlice : Int
  Z : Int
deriving DecidableEq

/-- Voxel-grid shape of the reference volume. -/
structure Shape where
  d0 : Nat
  d1 : Nat
  d2 : Nat
deriving DecidableEq

/-- The 3D mask array, as a function from voxel coordinates to values. -/
def Mask : Type := Vox → Int

/-- Bounds test `0 <= x < shape[0] and 0 <= y < shape[1] and 0 <= z < shape[2]`. -/
def inBoundsB (sh : Shape) (p : Vox) : Bool :=
  0 ≤ p.x && p.x < (sh.d0 : Int) && 0 ≤ p.y && p.y < (sh.d1 : Int) &&
    0 ≤ p.z && p.z < (sh.d2 : Int)

/-- Absolute center of a record: `(record.X + x_offset, y_slice, record.Z + z_offset)`. -/
def center (a : Anchor) (r : TileRec) : Vox :=
  ⟨r.X + a.X, a.YSlice, r.Z + a.Z⟩

/-- Componentwise voxel translation. -/
def addV (c d : Vox) : Vox :=
  ⟨c.x + d.x, c.y + d.y, c.z + d.z⟩

/-- The innermost guarded write `mask[nx, ny, nz] = v`. -/
def writeVox (sh : Shape) (m : Mask) (p : Vox) (v : Int) : Mask :=
  if inBoundsB sh p then fun q => if q = p then v else m q else m

/-- The loop range `range(-half_block, half_block + 1)` as a list of integers. -/
def offRange (h : Nat) : List Int :=
  (List.range (2 * h + 1)).map (fun (k : Nat) => (k : Int) - (h : Int))

/-- Offsets of the triple loop, in loop order (`dx` outermost). -/
def blockOffsets (blockSize : Nat) : List Vox :=
  let h := blockSize / 2
  (offRange h).flatMap (fun dx =>
    (offRange h).flatMap (fun dy =>
      (offRange h).map (fun dz => (⟨dx, dy, dz⟩ : Vox))))

/-- Stamp one record into the mask: if its center is in bounds, perform the
triple loop of guarded writes of `record.Value`; otherwise the record is
skipped (logged only) and the mask is untouched. -/
def stampRec (sh : Shape) (blockSize : Nat) (a : Anchor) (m : Mask) (r : TileRec) : Mask :=
  if inBoundsB sh (center a r) then
    (blockOffsets blockSize).foldl (fun acc d => writeVox sh acc (addV (center a r) d) r.Value) m
  else m

/-- The whole build pass: a zero mask, then every record stamped in
iteration order. -/
def buildMask (sh : Shape) (blockSize : Nat) (a : Anchor) (records : List TileRec) : Mask :=
  records.foldl (stampRec sh blockSize a) (fun _ => 0)

/-- Chebyshev-ball membership: `p` within `h` of `c` on every axis. -/
def chebNearB (h : Nat) (c p : Vox) : Bool :=
  c.x - (h : Int) ≤ p.x && p.x ≤ c.x + (h : Int) &&
    c.y - (h : Int) ≤ p.y && p.y ≤ c.y + (h : Int) &&
    c.z - (h : Int) ≤ p.z && p.z ≤ c.z + (h : Int)

/-- Does stamping record `r` write voxel `p`?  True exactly when the
center of the record is in bounds, `p` is within the half-block of the center on
every axis, and `p` itself is in bounds. -/
def coversB (sh : Shape) (blockSize : Nat) (a : Anchor) (r : TileRec) (p : Vox) : Bool :=
  inBoundsB sh (center a r) && chebNearB (blockSize / 2) (center a r) p && inBoundsB sh p

/-! ## OutputLedger and StageRunner: `check_existing_outputs`
(`scripts/pipeline_utils.py`, lines 254-276) and `BaseStep.execute`
(`scripts/pipeline_steps.py`, lines 34-69).

    if not force:
        existing = check_existing_outputs(...)
        if existing:
            subjects = [s for s in subjects if s not in existing]
    if not subjects:
        return True
    ...
    for subject in subjects:
        if self._process_subject(subject, dry_run, logger):
            success_count += 1
    return success_count == len(subjects)

The filesystem predicate "the per-subject stage directory exists and contains
at least one entry" is abstracted as the boolean oracle `existsOut`, and the
per-subject procedure as the oracle `proc`. -/

/-- Model of `check_existing_outputs`: the subjects whose stage output directory
exists and is nonempty. -/
def checkExistingOutputs (existsOut : Nat → Bool) (subjects : List Nat) : List Nat :=
  subjects.filter existsOut

/-- The subject list that survives the resume pruning at the top of
`BaseStep.execute`. -/
def subjectsToRun (force : Bool) (existsOut : Nat → Bool) (subjects : List Nat) : List Nat :=
  if force then subjects
  else
    let existing := checkExistingOutputs existsOut subjects
    if existing.isEmpty then subjects
    else subjects.filter (fun s => !existing.contains s)

/-- Model of `BaseStep.execute`: overall success flag and how many subjects were
handed to the per-subject procedure. -/
def executeStep (force : Bool) (existsOut : Nat → Bool) (proc : Nat → Bool)
    (subjects : List Nat) : Bool × Nat :=
  let subs := subjectsToRun force existsOut subjects
  if subs.isEmpty then (true, 0)
  else (subs.countP proc == subs.length, subs.length)

/-! ## KernelApplicationStep: `_process_subject`
(`scripts/pipeline_steps.py`, lines 594-636).

    if dry_run: ... return True
    output_dir.mkdir(parents=True, exist_ok=True)
    if output_file.exists():
        logger.info("Kernel output already exists"); return True
    if not aligned_block_file.exists():
        ... return False
    success = self._apply_kernel(aligned_block_file, output_file, logger)
    return success

`force` is not a parameter of `_process_subject` at all: once the output
file exists the step returns success without opening the input or running
the smoothing.  `readInput` records whether `_apply_kernel` loaded the
input volume; `recomputed` whether the smoothing ran. -/

/-- Observable outcome of the kernel step on one subject. -/
structure KernelOutcome where
  success : Bool
  readInput : Bool
  recomputed : Bool
deriving DecidableEq

/-- Translation of `KernelApplicationStep._process_subject` from the source. -/
def kernelProcessSubject (outputExists inputExists kernelOk dryRun : Bool) : KernelOutcome :=
  if dryRun then ⟨true, false, false⟩
  else if outputExists then ⟨true, false, false⟩
  else if !inputExists then ⟨false, false, false⟩
  else ⟨kernelOk, true, true⟩

/-- The kernel stage run through `BaseStep.execute`: success flag, number of
subjects attempted, and number of subjects for which the smoothing was
actually recomputed. -/
def kernelExecute (force : Bool) (dirNonempty outputExists inputExists kernelOk : Nat → Bool)
    (subjects : List Nat) : Bool × Nat × Nat :=
  let subs := subjectsToRun force dirNonempty subjects
  if subs.isEmpty then (true, 0, 0)
  else
    (subs.countP (fun s =>
        (kernelProcessSubject (outputExists s) (inputExists s) (kernelOk s) false).success)
      == subs.length,
     subs.length,
     subs.countP (fun s =>
        (kernelProcessSubject (outputExists s) (inputExists s) (kernelOk s) false).recomputed))

/-! ## Helper lemmas -/

/-- The fill loop builds one row per index, and row `k` is exactly what
`joinRow` produces for the `k`-th index of the list. -/
theorem joinRowsAux_spec (coords : List RawCoord) (at8 : List Meas) :
    ∀ (l : List Nat) (rows : List ProcRow), joinRowsAux coords at8 l = some rows →
      rows.length = l.length ∧ ∀ k : Nat, rows[k]? = l[k]?.bind (joinRow coords at8)
  | [], rows, h => by
    simp only [joinRowsAux, Option.some.injEq] at h
    subst h
    simp
  | i :: is, rows, h => by
    unfold joinRowsAux at h
    cases hr : joinRow coords at8 i with
    | none => rw [hr] at h; exact absurd h (by simp)
    | some r =>
      cases haux : joinRowsAux coords at8 is with
      | none => rw [hr, haux] at h; exact absurd h (by simp)
      | some rs =>
        rw [hr, haux] at h
        simp only [Option.some.injEq] at h
        obtain ⟨hlen, hget⟩ := joinRowsAux_spec coords at8 is rs haux
        subst h
        refine ⟨by simp [hlen], fun k => ?_⟩
        cases k with
        | zero => simpa using hr.symm
        | succ k => simpa using hget k

/-! ## Claim theorems -/

/-- C1 (amended): for a nonempty measurement sequence whose join pass raises
no exception, the joiner emits exactly `m` records, one per measurement: for
every `i` with `5*i < c`, record `i` is built from `coords[5*i]` and
`measurements[i]` (X and Z are the parsed coordinate cells floor-divided by
1000), and every measurement index `i` with `5*i >= c` contributes an
all-None record — it is emitted, not dropped, and raises no error. -/
theorem join_correspondence (coords : List RawCoord) (at8 : List Meas)
    (rows : List ProcRow) (ha : at8 ≠ []) (hj : joinRows coords at8 = some rows) :
    createProcessedFile coords at8 = .joined rows
    ∧ rows.length = at8.length
    ∧ (∀ i : Nat, i < at8.length → coords.length ≤ 5 * i → rows[i]? = some .noneRow)
    ∧ (∀ (i : Nat) (h5 : 5 * i < coords.length), i < at8.length →
        ∃ x y m, pyInt? (coords.get ⟨5 * i, h5⟩).xs = some x
          ∧ pyInt? (coords.get ⟨5 * i, h5⟩).ys = some y
          ∧ at8[i]? = some m
          ∧ rows[i]? = some (.filled (coords.get ⟨5 * i, h5⟩).name
              (Int.fdiv x 1000) (Int.fdiv y 1000) m.value)) := by
  have h0 : at8.length ≠ 0 := by simpa [List.length_eq_zero] using ha
  obtain ⟨hlen, hget⟩ := joinRowsAux_spec coords at8 (List.range at8.length) rows hj
  have hlen' : rows.length = at8.length := by simpa using hlen
  have hrow : ∀ i : Nat, i < at8.length → rows[i]? = joinRow coords at8 i := by
    intro i hi
    rw [hget i, List.getElem?_range hi, Option.some_bind]
  refine ⟨?_, hlen', ?_, ?_⟩
  · unfold createProcessedFile
    rw [if_neg h0, hj]
  · intro i hi hcl
    rw [hrow i hi]
    unfold joinRow
    rw [dif_neg (by omega)]
  · intro i h5 hi
    have hsome : (rows[i]?).isSome := by
      rw [List.getElem?_eq_getElem (by omega : i < rows.length)]
      rfl
    rw [hrow i hi] at hsome ⊢
    unfold joinRow at hsome ⊢
    rw [dif_pos h5] at hsome ⊢
    cases hx : pyInt? (coords.get ⟨5 * i, h5⟩).xs with
    | none => rw [hx] at hsome; simp at hsome
    | some x =>
      cases hy : pyInt? (coords.get ⟨5 * i, h5⟩).ys with
      | none => rw [hx, hy] at hsome; simp at hsome
      | some y =>
        cases hm : at8[i]? with
        | none => rw [hx, hy, hm] at hsome; simp at hsome
        | some m => exact ⟨x, y, m, rfl, rfl, rfl, rfl⟩

/-- C1 counterexample: one coordinate row joined with two measurements
yields two emitted records (the second an all-None row), not
`min(m, ceil(c/5)) = min 2 1 = 1` as the claim states; the extra
measurement is not dropped. -/
theorem join_correspondence_counterexample :
    numRecords (createProcessedFile [⟨"T0", "7000", "3000"⟩]
      [⟨"Tile 1", 4⟩, ⟨"Tile 2", 6⟩]) ≠ min 2 1 := by
  decide

/-- C1 witness: a concrete successful join (c = 1, m = 2): record 0 is built
from `coords[0]` with X = 7000 // 1000 and Z = 3000 // 1000, and record 1 is
the all-None row. -/
theorem join_correspondence_witness :
    createProcessedFile [⟨"T0", "7000", "3000"⟩] [⟨"Tile 1", 4⟩, ⟨"Tile 2", 6⟩]
      = .joined [.filled "T0" 7 3 4, .noneRow] :=
  (join_correspondence [⟨"T0", "7000", "3000"⟩] [⟨"Tile 1", 4⟩, ⟨"Tile 2", 6⟩]
    [.filled "T0" 7 3 4, .noneRow] (by decide) (by decide)).1

/-- C5: with an empty measurement sequence the joiner emits exactly one
record per extracted coordinate, each with Value 0, skipping the positional
join, and the extract step still reports the subject as succeeded. -/
theorem empty_measurement_fallback (coords : List RawCoord) :
    createProcessedFile coords [] = .fallback (fallbackRows coords)
    ∧ (fallbackRows coords).length = coords.length
    ∧ (∀ r ∈ fallbackRows coords, r.2.2.2 = 0)
    ∧ (coords ≠ [] →
        extractStepResult coords [] = (true, some (.fallback (fallbackRows coords)))) := by
  refine ⟨rfl, by simp [fallbackRows], ?_, ?_⟩
  · intro r hr
    simp only [fallbackRows, List.mem_map] at hr
    obtain ⟨c, _, hc⟩ := hr
    simp [← hc]
  · intro hc
    have h0 : coords.length ≠ 0 := by simpa [List.length_eq_zero] using hc
    simp [extractStepResult, h0, createProcessedFile]

/-- C5 witness: the fallback on one concrete coordinate row. -/
theorem empty_measurement_fallback_witness :
    extractStepResult [⟨"T0", "7000", "3000"⟩] []
      = (true, some (.fallback [("T0", "7000", "3000", 0)])) := by
  have h := (empty_measurement_fallback [⟨"T0", "7000", "3000"⟩]).2.2.2 (by decide)
  simpa using h

/-- C10: when the join construction fails (here: a coordinate cell that
`int(...)` rejects), the raw coordinate CSV is silently copied to the
processed-file path and the extract step still reports the subject as
succeeded. -/
theorem join_failure_fallback (coords : List RawCoord) (at8 : List Meas)
    (hc : coords ≠ []) (ha : at8 ≠ []) (hj : joinRows coords at8 = none) :
    createProcessedFile coords at8 = .copiedRaw coords
    ∧ extractStepResult coords at8 = (true, some (.copiedRaw coords)) := by
  have h0 : at8.length ≠ 0 := by simpa [List.length_eq_zero] using ha
  have hcp : createProcessedFile coords at8 = .copiedRaw coords := by
    unfold createProcessedFile
    rw [if_neg h0, hj]
  have hc0 : coords.length ≠ 0 := by simpa [List.length_eq_zero] using hc
  exact ⟨hcp, by simp [extractStepResult, hc0, hcp]⟩

/-- C10 witness: the coordinate cell "abc" fails to parse, the raw rows are
copied, and the subject is reported successful. -/
theorem join_failure_fallback_witness :
    extractStepResult [⟨"Tile 1", "abc", "5"⟩] [⟨"Tile 1", 3⟩]
      = (true, some (.copiedRaw [⟨"Tile 1", "abc", "5"⟩])) :=
  (join_failure_fallback [⟨"Tile 1", "abc", "5"⟩] [⟨"Tile 1", 3⟩]
    (by decide) (by decide) (by decide)).2

/-- C8: with `force` every subject is run and none skipped; without `force`
exactly the subjects whose stage output directory exists and is nonempty
(the `existsOut` oracle) are pruned before processing; and when all subjects
are pruned the stage returns success immediately with zero per-subject
invocations. -/
theorem resume_pruning_force (existsOut : Nat → Bool) (subjects : List Nat) :
    subjectsToRun true existsOut subjects = subjects
    ∧ subjectsToRun false existsOut subjects = subjects.filter (fun s => !existsOut s)
    ∧ (∀ (force : Bool) (proc : Nat → Bool), subjectsToRun force existsOut subjects = [] →
        executeStep force existsOut proc subjects = (true, 0)) := by
  refine ⟨rfl, ?_, ?_⟩
  · unfold subjectsToRun checkExistingOutputs
    simp only [if_neg (by simp : ¬ false = true)]
    by_cases hemp : (subjects.filter existsOut).isEmpty
    · rw [if_pos hemp]
      have hnil : ∀ a ∈ subjects, ¬ existsOut a := by
        simpa [List.isEmpty_iff] using hemp
      exact (List.filter_eq_self.mpr (fun a ha => by simp [hnil a ha])).symm
    · rw [if_neg hemp]
      refine List.filter_congr (fun a ha => ?_)
      by_cases h : existsOut a
      · simp [List.mem_filter, ha, h]
      · have : a ∉ subjects.filter existsOut := by simp [List.mem_filter, h]
        simp [this, h]
  · intro force proc hrun
    unfold executeStep
    rw [hrun]
    rfl

/-- C8 witness: concrete instantiations of the three conjuncts: with force
the pruned-looking subject 1 still runs; without force exactly subject 1 is
pruned; and when everything is pruned the step reports success with zero
per-subject invocations. -/
theorem resume_pruning_force_witness :
    subjectsToRun true (fun s => s == 1) [1, 2] = [1, 2]
    ∧ subjectsToRun false (fun s => s == 1) [1, 2] = [2]
    ∧ executeStep false (fun s => s == 1) (fun _ => false) [1] = (true, 0) := by
  refine ⟨(resume_pruning_force (fun s => s == 1) [1, 2]).1, ?_, ?_⟩
  · have h := (resume_pruning_force (fun s => s == 1) [1, 2]).2.1
    simpa using h
  · exact (resume_pruning_force (fun s => s == 1) [1]).2.2 false (fun _ => false) (by decide)

/-- C9: once the per-subject output file of the kernel stage exists, the kernel
step reports the subject as succeeded without reading the input or
recomputing — and since `force` only bypasses the directory-level pruning,
a forced run over subjects whose outputs all exist succeeds, attempts every
subject, and recomputes none of them. -/
theorem kernel_skip_defeats_force (dirNonempty outputExists inputExists kernelOk : Nat → Bool)
    (subjects : List Nat) (h : ∀ s ∈ subjects, outputExists s = true) :
    (∀ s ∈ subjects,
        kernelProcessSubject (outputExists s) (inputExists s) (kernelOk s) false
          = ⟨true, false, false⟩)
    ∧ kernelExecute true dirNonempty outputExists inputExists kernelOk subjects
        = (true, subjects.length, 0) := by
  have hone : ∀ s ∈ subjects,
      kernelProcessSubject (outputExists s) (inputExists s) (kernelOk s) false
        = ⟨true, false, false⟩ := by
    intro s hs
    unfold kernelProcessSubject
    rw [if_neg (by simp), if_pos (h s hs)]
  refine ⟨hone, ?_⟩
  unfold kernelExecute
  have hsub : subjectsToRun true dirNonempty subjects = subjects := rfl
  rw [hsub]
  by_cases hemp : subjects.isEmpty
  · have : subjects = [] := by simpa [List.isEmpty_iff] using hemp
    subst this
    rfl
  · rw [if_neg hemp]
    have hsucc : subjects.countP (fun s =>
        (kernelProcessSubject (outputExists s) (inputExists s) (kernelOk s) false).success)
        = subjects.length :=
      List.countP_eq_length.mpr (fun s hs => by rw [hone s hs])
    have hrec : subjects.countP (fun s =>
        (kernelProcessSubject (outputExists s) (inputExists s) (kernelOk s) false).recomputed)
        = 0 :=
      List.countP_eq_zero.mpr (fun s hs => by rw [hone s hs]; simp)
    rw [hsucc, hrec]
    simp

/-- C9 witness: two subjects, both with existing kernel outputs, under a
forced run: both are attempted and succeed, nothing is recomputed. -/
theorem kernel_skip_defeats_force_witness :
    kernelExecute true (fun _ => true) (fun _ => true) (fun _ => false) (fun _ => false) [3, 4]
      = (true, 2, 0) :=
  (kernel_skip_defeats_force (fun _ => true) (fun _ => true) (fun _ => false) (fun _ => false)
    [3, 4] (by decide)).2

/-- One guarded write, read back pointwise. -/
theorem writeVox_apply (sh : Shape) (m : Mask) (q : Vox) (v : Int) (p : Vox) :
    writeVox sh m q v p = if (q == p) && inBoundsB sh p then v else m p := by
  unfold writeVox
  by_cases hq : q = p
  · subst hq
    by_cases hB : inBoundsB sh q
    · simp [hB]
    · simp [hB]
  · have hq' : ¬ p = q := fun hh => hq hh.symm
    by_cases hB : inBoundsB sh q
    · simp [hB, hq, hq']
    · simp [hB, hq]

/-- A fold of guarded writes of one constant value, read back pointwise. -/
theorem foldl_writeVox (sh : Shape) (v : Int) (c : Vox) :
    ∀ (L : List Vox) (m : Mask) (p : Vox),
      (L.foldl (fun acc d => writeVox sh acc (addV c d) v) m) p
        = if (L.any (fun d => addV c d == p)) && inBoundsB sh p then v else m p
  | [], m, p => by simp
  | d :: L, m, p => by
    rw [List.foldl_cons, foldl_writeVox sh v c L (writeVox sh m (addV c d) v) p,
      writeVox_apply, List.any_cons]
    by_cases hL : L.any (fun d => addV c d == p)
    · by_cases hB : inBoundsB sh p
      · simp [hL, hB]
      · simp [hL, hB]
    · by_cases hB : inBoundsB sh p
      · by_cases hd : addV c d == p
        · simp [hL, hB, hd]
        · simp [hL, hB, hd]
      · simp [hL, hB]

/-- Membership in `range(-h, h+1)`. -/
theorem mem_offRange (h : Nat) (k : Int) :
    k ∈ offRange h ↔ -(h : Int) ≤ k ∧ k ≤ (h : Int) := by
  unfold offRange
  rw [List.mem_map]
  constructor
  · rintro ⟨j, hj, rfl⟩
    rw [List.mem_range] at hj
    omega
  · rintro ⟨h1, h2⟩
    refine ⟨(k + h).toNat, ?_, ?_⟩
    · rw [List.mem_range]
      omega
    · omega

/-- Membership in the triple-loop offset list. -/
theorem mem_blockOffsets (bs : Nat) (d : Vox) :
    d ∈ blockOffsets bs ↔
      (-((bs / 2 : Nat) : Int) ≤ d.x ∧ d.x ≤ ((bs / 2 : Nat) : Int))
      ∧ (-((bs / 2 : Nat) : Int) ≤ d.y ∧ d.y ≤ ((bs / 2 : Nat) : Int))
      ∧ (-((bs / 2 : Nat) : Int) ≤ d.z ∧ d.z ≤ ((bs / 2 : Nat) : Int)) := by
  obtain ⟨x, y, z⟩ := d
  unfold blockOffsets
  simp only [List.mem_flatMap, List.mem_map]
  constructor
  · rintro ⟨dx, hdx, dy, hdy, dz, hdz, heq⟩
    cases heq
    rw [mem_offRange] at hdx hdy hdz
    exact ⟨hdx, hdy, hdz⟩
  · rintro ⟨hx, hy, hz⟩
    exact ⟨x, (mem_offRange _ _).mpr hx, y, (mem_offRange _ _).mpr hy,
      z, (mem_offRange _ _).mpr hz, rfl⟩

/-- The triple loop hits `p` exactly when `p` is within the half-block of
the center on every axis. -/
theorem any_blockOffsets (bs : Nat) (c p : Vox) :
    ((blockOffsets bs).any (fun d => addV c d == p)) = chebNearB (bs / 2) c p := by
  rw [Bool.eq_iff_iff]
  simp only [List.any_eq_true, beq_iff_eq]
  constructor
  · rintro ⟨d, hd, rfl⟩
    rw [mem_blockOffsets] at hd
    obtain ⟨c1, c2, c3⟩ := c
    obtain ⟨d1, d2, d3⟩ := d
    simp only [chebNearB, addV, Bool.and_eq_true, decide_eq_true_eq] at hd ⊢
    omega
  · intro hcheb
    obtain ⟨c1, c2, c3⟩ := c
    obtain ⟨p1, p2, p3⟩ := p
    simp only [chebNearB, Bool.and_eq_true, decide_eq_true_eq] at hcheb
    refine ⟨⟨p1 - c1, p2 - c2, p3 - c3⟩, (mem_blockOffsets bs _).mpr (by simp; omega), ?_⟩
    simp only [addV, Vox.mk.injEq]
    refine ⟨?_, ?_, ?_⟩ <;> omega

/-- Stamping one record, read back pointwise: `p` is overwritten with the
value of that record exactly when the record covers `p`. -/
theorem stampRec_apply (sh : Shape) (bs : Nat) (a : Anchor) (m : Mask) (r : TileRec) (p : Vox) :
    stampRec sh bs a m r p = if coversB sh bs a r p then r.Value else m p := by
  unfold stampRec coversB
  by_cases hin : inBoundsB sh (center a r)
  · rw [if_pos hin, foldl_writeVox, any_blockOffsets, hin]
    simp
  · rw [if_neg hin]
    simp only [Bool.not_eq_true] at hin
    rw [hin]
    simp

/-- The whole build pass, read back pointwise: a voxel holds the value of
the last record in iteration order that covers it, or 0 if none does. -/
theorem buildFold_apply (sh : Shape) (bs : Nat) (a : Anchor) :
    ∀ (recs : List TileRec) (m : Mask) (p : Vox),
      (recs.foldl (stampRec sh bs a) m) p
        = match recs.reverse.find? (fun r => coversB sh bs a r p) with
          | some r => r.Value
          | none => m p
  | [], m, p => by simp
  | r :: t, m, p => by
    rw [List.foldl_cons, buildFold_apply sh bs a t (stampRec sh bs a m r) p,
      List.reverse_cons, List.find?_append]
    cases hf : t.reverse.find? (fun r' => coversB sh bs a r' p) with
    | some r' => simp
    | none =>
      rw [stampRec_apply]
      by_cases hc : coversB sh bs a r p
      · simp [hc]
      · simp [hc]

/-- C2 (amended): for an in-bounds TileRecord, the stamped region is the
set of in-bounds voxels within Chebyshev distance `blockSize // 2` of the
center: a cube of side `2 * (blockSize // 2) + 1`, exactly centered for
every blockSize.  For odd blockSize that is a cube of side blockSize; for
even blockSize the side is blockSize + 1, still exactly centered, not
biased toward the negative side. -/
theorem block_stamping_geometry (sh : Shape) (bs : Nat) (a : Anchor) (r : TileRec)
    (hin : inBoundsB sh (center a r) = true) (p : Vox) :
    buildMask sh bs a [r] p
      = if chebNearB (bs / 2) (center a r) p && inBoundsB sh p then r.Value else 0 := by
  unfold buildMask
  rw [List.foldl_cons, List.foldl_nil, stampRec_apply]
  unfold coversB
  rw [hin]
  simp only [Bool.true_and]

/-- C2 witness: blockSize 4 (half-extent 2), center (4,4,4): the voxel at
offset +2 on the x axis is stamped, giving the exactly-centered side-5
cube. -/
theorem block_stamping_geometry_witness :
    buildMask ⟨9, 9, 9⟩ 4 ⟨0, 4, 0⟩ [⟨4, 4, 5⟩] ⟨6, 4, 4⟩ = 5 := by
  rw [block_stamping_geometry ⟨9, 9, 9⟩ 4 ⟨0, 4, 0⟩ ⟨4, 4, 5⟩ (by decide) ⟨6, 4, 4⟩]
  decide

/-- C2 counterexample: with even blockSize 2 and center (2,2,2) the build
writes both (1,2,2) and (3,2,2) — x values spanning 3 voxels, so the
stamped region is not a cube of side 2, and the write at offset +1 shows it
is not biased one voxel toward the negative side. -/
theorem block_stamping_geometry_counterexample :
    buildMask ⟨5, 5, 5⟩ 2 ⟨0, 2, 0⟩ [⟨2, 2, 9⟩] ⟨1, 2, 2⟩ = 9
    ∧ buildMask ⟨5, 5, 5⟩ 2 ⟨0, 2, 0⟩ [⟨2, 2, 9⟩] ⟨3, 2, 2⟩ = 9 := by
  decide

/-- C3: when the stamped cubes of two records overlap at a voxel, the voxel
ends up holding exactly the value of the later record (no later record covering
the voxel), never a sum or average. -/
theorem last_write_wins (sh : Shape) (bs : Nat) (a : Anchor)
    (pre mid post : List TileRec) (rA rB : TileRec) (v : Vox)
    (_hA : coversB sh bs a rA v = true) (hB : coversB sh bs a rB v = true)
    (hpost : ∀ r ∈ post, coversB sh bs a r v = false) :
    buildMask sh bs a (pre ++ rA :: mid ++ rB :: post) v = rB.Value := by
  unfold buildMask
  rw [buildFold_apply]
  have hpost' : post.reverse.find? (fun r => coversB sh bs a r v) = none :=
    List.find?_eq_none.mpr (fun x hx => by simp [hpost x (List.mem_reverse.mp hx)])
  simp [List.reverse_append, List.reverse_cons, List.find?_append, hpost', List.find?_cons, hB]

/-- C3 witness: record A (Value 5) then record B (Value 9), blocks of size
3, both covering voxel (10,10,10): the voxel holds 9. -/
theorem last_write_wins_witness :
    buildMask ⟨20, 20, 20⟩ 3 ⟨0, 10, 0⟩ [⟨10, 10, 5⟩, ⟨11, 11, 9⟩] ⟨10, 10, 10⟩ = 9 := by
  have h := last_write_wins ⟨20, 20, 20⟩ 3 ⟨0, 10, 0⟩ [] [] [] ⟨10, 10, 5⟩ ⟨11, 11, 9⟩
    ⟨10, 10, 10⟩ (by decide) (by decide) (by simp)
  simpa using h

/-- C4: a record whose absolute center lies outside the volume bounds on
any axis writes zero voxels (the mask is unchanged and, the function being
total, nothing is raised); and any record only ever changes in-bounds
voxels — each cube voxel is individually clipped. -/
theorem bounds_safe_stamping (sh : Shape) (bs : Nat) (a : Anchor) (r : TileRec) (m : Mask) :
    (inBoundsB sh (center a r) = false → stampRec sh bs a m r = m)
    ∧ (∀ p : Vox, stampRec sh bs a m r p ≠ m p → inBoundsB sh p = true) := by
  constructor
  · intro h
    unfold stampRec
    rw [h]
    simp
  · intro p hne
    rw [stampRec_apply] at hne
    cases hc : coversB sh bs a r p with
    | true =>
      have := hc
      simp only [coversB, Bool.and_eq_true] at this
      exact this.2
    | false =>
      rw [hc] at hne
      simp at hne

/-- C4 witness: anchor YSlice 9 is outside a shape with dimension 4, so the
record stamps nothing and the zero mask is returned unchanged. -/
theorem bounds_safe_stamping_witness :
    stampRec ⟨4, 4, 4⟩ 3 ⟨0, 9, 0⟩ (fun _ => 0) ⟨1, 1, 5⟩ = (fun _ => 0) :=
  (bounds_safe_stamping ⟨4, 4, 4⟩ 3 ⟨0, 9, 0⟩ ⟨1, 1, 5⟩ (fun _ => 0)).1 (by decide)

/-- C7 (amended): the resolver scans the sidecar lines ignoring blanks,
comment lines and `=`-free lines, takes the first line whose stripped
left-hand side equals the subject id — later duplicates are shadowed — and
returns the parse of the right-hand side of that line as three comma-separated
integers; when no line matches, and equally when the matched right-hand
side is malformed, it returns `none`: the two failure modes produce the
same undifferentiated result, not distinct error kinds. -/
theorem manual_anchor_resolution (subjectId : Nat) :
    (∀ (pre : List String) (line : String) (post : List String),
        (∀ l ∈ pre, matchesSubject l subjectId = false) →
        matchesSubject line subjectId = true →
        loadManualCoordinates (pre ++ line :: post) subjectId
          = parseThreeInts (rhsOf line))
    ∧ (∀ lines : List String, (∀ l ∈ lines, matchesSubject l subjectId = false) →
        loadManualCoordinates lines subjectId = none) := by
  constructor
  · intro pre line post hpre hline
    induction pre with
    | nil => simp [loadManualCoordinates, hline]
    | cons p ps ih =>
      have hp : matchesSubject p subjectId = false := hpre p (by simp)
      have hps : ∀ l ∈ ps, matchesSubject l subjectId = false :=
        fun l hl => hpre l (by simp [hl])
      simpa [loadManualCoordinates, hp] using ih hps
  · intro lines hnone
    induction lines with
    | nil => rfl
    | cons p ps ih =>
      have hp := hnone p (by simp)
      have hps : ∀ l ∈ ps, matchesSubject l subjectId = false :=
        fun l hl => hnone l (by simp [hl])
      simp [loadManualCoordinates, hp, ih hps]

/-- C7 counterexample: a malformed matching line (`7=1,2`) and a file with
no matching line at all both resolve to the same `none` — the resolver
returns one undifferentiated failure, not a distinct AnchorMalformed versus
AnchorNotFound error. -/
theorem manual_anchor_resolution_counterexample :
    loadManualCoordinates ["7=1,2"] 7 = none
    ∧ loadManualCoordinates ["8=1,2,3"] 7 = none := by
  decide

/-- C7 witness: comments and non-matching lines are skipped, the first
matching line wins, and its later duplicate is shadowed. -/
theorem manual_anchor_resolution_witness :
    loadManualCoordinates ["# comment", "8=4,4,4", "7=1,2,3", "7=9,9,9"] 7
      = some (1, 2, 3) := by
  have h := (manual_anchor_resolution 7).1 ["# comment", "8=4,4,4"] "7=1,2,3" ["7=9,9,9"]
    (by decide) (by decide)
  rw [List.cons_append, List.cons_append, List.nil_append] at h
  rw [h]
  decide

/-- Digit test after dot removal, restated over the original token. -/
theorem all_stripDots (l : List Char) :
    (stripDots l).all Char.isDigit = l.all (fun c => c.isDigit || c == '.') := by
  induction l with
  | nil => rfl
  | cons c t ih =>
    by_cases hdot : c = '.'
    · subst hdot
      have h1 : stripDots ('.' :: t) = stripDots t := by simp [stripDots]
      rw [h1, ih, List.all_cons]
      simp
    · have hb : (c == '.') = false := by simpa using hdot
      have h1 : stripDots (c :: t) = c :: stripDots t := by simp [stripDots, hb]
      rw [h1, List.all_cons, List.all_cons, ih, hb]
      simp

/-- Identity for `value.replace(".", "").isdigit()`: every character is a digit
or a dot, and at least one is a digit. -/
theorem pyIsDigit_stripDots (l : List Char) :
    pyIsDigit (stripDots l) = (l.all (fun c => c.isDigit || c == '.') && l.any Char.isDigit) := by
  induction l with
  | nil => rfl
  | cons c t ih =>
    by_cases hdot : c = '.'
    · subst hdot
      have h1 : stripDots ('.' :: t) = stripDots t := by simp [stripDots]
      rw [h1, ih, List.all_cons, List.any_cons]
      simp
    · have hb : (c == '.') = false := by simpa using hdot
      have h1 : stripDots (c :: t) = c :: stripDots t := by simp [stripDots, hb]
      rw [h1, List.all_cons, List.any_cons]
      unfold pyIsDigit
      rw [List.all_cons, hb]
      cases hd : c.isDigit with
      | false => simp [hd]
      | true => simp [hd, all_stripDots]

/-- Rephrasing of `l.contains a` as list membership of a character. -/
theorem contains_char_iff (l : List Char) (a : Char) : l.contains a = true ↔ a ∈ l :=
  List.elem_iff

/-- Rephrasing of `l.contains a` as a pointwise any-test. -/
theorem contains_eq_any (l : List Char) (a : Char) :
    l.contains a = l.any (fun c => c == a) := by
  rw [Bool.eq_iff_iff, contains_char_iff, List.any_eq_true]
  constructor
  · intro h
    exact ⟨a, h, by simp⟩
  · rintro ⟨c, hc, hca⟩
    rw [beq_iff_eq] at hca
    exact hca ▸ hc

/-- C6 (amended): load-time value coercion applies, in order: literal
`true`/`false` matched case-insensitively become booleans; a token made
only of digits and decimal points with at least one digit is treated as
numeric — an integer with no point, a float with exactly one point, and
with two or more points the float conversion fails and the whole load
raises; a remaining token containing commas becomes the ordered sequence
of stripped string tokens; anything else stays a string, raising no
error. -/
theorem config_value_coercion (value : String) :
    coerceValue value = specCoerceValueAmended value := by
  unfold coerceValue specCoerceValueAmended
  by_cases ht : lowerEq value.data "true".data
  · simp [ht]
  · by_cases hf : lowerEq value.data "false".data
    · simp [ht, hf]
    · simp only [ht, hf, Bool.false_or, Bool.or_self, if_false]
      rw [pyIsDigit_stripDots]
      by_cases hnum : (value.data.all (fun c => c.isDigit || c == '.')
          && value.data.any Char.isDigit) = true
      · rw [if_pos hnum, if_pos hnum]
        rcases hd : dotCount value.data with _ | n
        · have hmem : '.' ∉ value.data := by
            rw [← List.count_eq_zero]
            exact hd
          have hcont : value.data.contains '.' = false := by
            rw [← Bool.not_eq_true, contains_char_iff]
            exact hmem
          rw [hcont]
          simp [hd]
        · have hmem : '.' ∈ value.data := by
            rw [← List.count_pos_iff]
            rw [dotCount] at hd
            omega
          have hcont : value.data.contains '.' = true := (contains_char_iff _ _).mpr hmem
          rw [hcont]
          cases n with
          | zero => simp [hd]
          | succ n2 => simp [hd]
      · rw [if_neg hnum, if_neg hnum, contains_eq_any]
        simp

/-- C6 counterexample: the token `1.2.3` passes the digit test of the code after
dot removal, yet `float("1.2.3")` fails, so the load raises instead of
leaving the token a string as the claim requires; and the token `True`
becomes a boolean although it is not the lowercase literal the claim
describes. -/
theorem config_value_coercion_counterexample :
    coerceValue "1.2.3" = CoerceResult.loadError
    ∧ coerceValue "True" = CoerceResult.ok (.boolV true) := by
  decide

end QNPtoVox
